import Mathlib

/-!
# Error values of package `pl` (error.go)

A shallow embedding of `error.go`: the error shapes of the workflow engine
(`ErrFlow`, `ErrWorkflow`, `ErrUnexpectStepInitStatus`, `ErrCycleDependency`)
with their `Error()` renderers, the success test `ErrWorkflow.IsNil`, the two
sentinel errors, and the fault boundary `catchPanicAsError`.

Conventions of the embedding.

* A Go `error` is `Option ErrorValue`: `none` is `nil`, `some v` a non-nil
  error with the text its `Error()` method yields.
* A Go map is given by the list of its entries in the order in which `range`
  visits them; a statement about "every enumeration order" quantifies over
  that list or over its permutations.
* A call that may fault (Go `panic`) yields an `Outcome`.
* Allocation is explicit: a function that makes a new error value takes the
  address the allocator hands out.
-/

namespace Pl

/-! ## Data model -/

/-- A non-nil Go error value. `addr` is the identity of the value (errors
compare by identity), `msg` is what its `Error()` method returns. -/
structure ErrorValue where
  addr : Nat
  msg : String
  deriving DecidableEq, Repr

/-- The Go interface type `error`: `none` is the nil error. -/
abbrev error := Option ErrorValue

/-- Modelled from the spec: the step handle (interface `StepReader`, declared
outside error.go). Section 6 of the specification gives the contract: a stable
display name (`String()`) and a current status whose display form
(`GetStatus().String()`) is used verbatim; handles are comparable, as they are
used as map keys. Under the verb `%s` fmt prints a handle, and its status,
through their `String()` methods, so `Name` and `GetStatus` are also what the
format calls of error.go insert. -/
structure StepReader where
  key : Nat
  Name : String
  GetStatus : String
  deriving DecidableEq, Repr

/-- The map type `ErrWorkflow` (error.go line 23), as the list of its entries
in the order in which `range` enumerates them. -/
abbrev ErrWorkflow := List (StepReader × error)

/-! ## ErrWorkflow.IsNil (error.go lines 38-45) -/

/-- Loop of `IsNil`: return false at the first entry whose error is not nil,
true once the entries are exhausted. -/
def ErrWorkflow.IsNil : ErrWorkflow → Bool
  | [] => true
  | (_, err) :: rest => if err ≠ none then false else ErrWorkflow.IsNil rest

/-! ## ErrWorkflow.Error (error.go lines 25-36) -/

/-- Body of the `range` loop of `ErrWorkflow.Error`: an entry with a non-nil
error appends `fmt.Sprintf("%s [%s]: %s\n", reporter.String(),
reporter.GetStatus().String(), err.Error())` to the builder; an entry with a
nil error leaves the builder as it is. -/
def ErrWorkflow.Error.step (builder : String) (entry : StepReader × error) : String :=
  match entry.2 with
  | some err =>
    builder ++ (entry.1.Name ++ " [" ++ entry.1.GetStatus ++ "]: " ++ err.msg ++ "\n")
  | none => builder

/-- The method `ErrWorkflow.Error`: a fresh `strings.Builder`, one pass over
the entries, then `builder.String()`. -/
def ErrWorkflow.Error (e : ErrWorkflow) : String :=
  e.foldl ErrWorkflow.Error.step ""

/-! ## ErrFlow (error.go lines 13-20) -/

/-- The struct `ErrFlow`: the underlying error and the step it came from. -/
structure ErrFlow where
  Err : error
  From : StepReader
  deriving DecidableEq, Repr

/-- The method `(*ErrFlow).Error`. The result is `none` when the call faults:
`e.Err.Error()` dereferences a nil interface when `Err` is nil. Otherwise it is
the text `fmt.Sprintf("ErrFlow(From %s [%s]): %s", e.From, e.From.GetStatus(),
e.Err.Error())` paired with the receiver as the call leaves it (the method has
a pointer receiver and writes to no field). -/
def ErrFlow.Error (e : ErrFlow) : Option (String × ErrFlow) :=
  match e.Err with
  | none => none
  | some u =>
    some ("ErrFlow(From " ++ e.From.Name ++ " [" ++ e.From.GetStatus ++ "]): " ++ u.msg, e)

/-! ## ErrUnexpectStepInitStatus (error.go lines 50-64) -/

/-- The slice type `ErrUnexpectStepInitStatus`. -/
abbrev ErrUnexpectStepInitStatus := List StepReader

/-- Body of the loop of `ErrUnexpectStepInitStatus.Error`:
`builder.WriteRune('\n')` followed by
`builder.WriteString(fmt.Sprintf("%s [%s]", j, j.GetStatus()))`. -/
def ErrUnexpectStepInitStatus.Error.step (builder : String) (j : StepReader) : String :=
  builder.push '\n' ++ (j.Name ++ " [" ++ j.GetStatus ++ "]")

/-- The method `ErrUnexpectStepInitStatus.Error`: the header is written first,
then one pass over the slice. -/
def ErrUnexpectStepInitStatus.Error (e : ErrUnexpectStepInitStatus) : String :=
  e.foldl ErrUnexpectStepInitStatus.Error.step "Unexpect Step initial status:"

/-! ## catchPanicAsError (error.go lines 86-106) -/

/-- A non-nil value of Go type `any`, as `recover()` hands it to the deferred
closure and to the extractors: a string, a value implementing `error`, a value
implementing `fmt.Stringer`, an `int`, or a `bool`. -/
inductive Payload where
  | str (s : String)
  | err (e : ErrorValue)
  | stringer (text : String)
  | int (n : Int)
  | bool (b : Bool)
  deriving DecidableEq, Repr

/-- The text package fmt produces for the verb `%s` applied to one operand.
Strings print as they are, errors through `Error()`, stringers through
`String()`; for an operand of any other type `%s` is the wrong verb and fmt
prints its format-error form `%!s(type=value)`. -/
def fmt.formatS : Payload → String
  | .str s => s
  | .err e => e.msg
  | .stringer text => text
  | .int n => "%!s(int=" ++ toString n ++ ")"
  | .bool b => "%!s(bool=" ++ toString b ++ ")"

/-- The text package fmt produces for the verb `%v`, "the value in a default
format": the default string form of a value. -/
def fmt.formatV : Payload → String
  | .str s => s
  | .err e => e.msg
  | .stringer text => text
  | .int n => toString n
  | .bool b => toString b

/-- The call `fmt.Errorf("%s", r)`: a newly allocated error value, at the
address `fresh` the allocator hands out, whose message is the `%s` rendering
of `r`. -/
def fmt.Errorf (fresh : Nat) (r : Payload) : ErrorValue :=
  { addr := fresh, msg := fmt.formatS r }

/-- How a call of a Go function of result type `error` ends: it returns an
error (possibly nil), or it faults with `panic(r)`. The payload is recorded as
`recover()` reports it, which is nil for `panic(nil)` where the runtime keeps
nil panic values (Go before 1.21, or `GODEBUG=panicnil=1`). -/
inductive Outcome where
  | returns (v : error)
  | panics (r : Option Payload)
  deriving DecidableEq, Repr

/-- An extractor `func(any) error`, given by how its call on a payload ends. -/
abbrev Extractor := Payload → Outcome

/-- Lines 93-100, run inside the deferred closure once `recover()` has yielded
the non-nil payload `r`: the extractors are called in order; the first non-nil
`xerr` is stored and the closure returns; with no such extractor the payload is
turned into an error by `fmt.Errorf("%s", r)`. The closure holds no `recover`
of its own, so an extractor that faults ends the whole call with that fault. -/
def catchPanicAsError.extract (fresh : Nat) (r : Payload) : List Extractor → Outcome
  | [] => .returns (some (fmt.Errorf fresh r))
  | extract :: rest =>
    match extract r with
    | .returns (some xerr) => .returns (some xerr)
    | .returns none => catchPanicAsError.extract fresh r rest
    | .panics p => .panics p

/-- The function `catchPanicAsError(f, extractErrs...)`; `f` is given by how
its single call at line 103 ends. When `f` returns, `*err = f()` stores its
result and `recover()` is nil. When `f` faults, the deferred closure runs:
a nil `recover()` leaves `returnErr` at its zero value, a non-nil one goes
through the extractors. -/
def catchPanicAsError (fresh : Nat) (f : Outcome) (extractErrs : List Extractor) : Outcome :=
  match f with
  | .returns v => .returns v
  | .panics none => .returns none
  | .panics (some r) => catchPanicAsError.extract fresh r extractErrs

/-! ## ErrCycleDependency (error.go lines 66-84) -/

/-- The map type `ErrCycleDependency` (error.go line 67), as the list of its
entries, a step with its dependency slice, in the order in which `range`
enumerates the keys. -/
abbrev ErrCycleDependency := List (StepReader × List StepReader)

/-- The library function `strings.Join(elems, sep)`: the empty string for no
element, the element itself for one, and otherwise the first element followed
by `sep` and the next element, for each further element in turn. -/
def strings.Join (elems : List String) (sep : String) : String :=
  match elems with
  | [] => ""
  | [a] => a
  | a :: rest => rest.foldl (fun b s => b ++ sep ++ s) a

/-- Lines 73-76: `depsStr` starts as the empty slice and receives
`dep.String()` by `append` for each dependency in slice order. -/
def ErrCycleDependency.Error.depsStr (deps : List StepReader) : List String :=
  deps.foldl (fun depsStr dep => depsStr ++ [dep.Name]) []

/-- Body of the `range` loop of `ErrCycleDependency.Error`:
`builder.WriteRune('\n')` followed by `builder.WriteString(fmt.Sprintf(
"%s: [%s]", j, strings.Join(depsStr, ", ")))`. -/
def ErrCycleDependency.Error.step (builder : String)
    (entry : StepReader × List StepReader) : String :=
  builder.push '\n'
    ++ (entry.1.Name ++ ": ["
      ++ strings.Join (ErrCycleDependency.Error.depsStr entry.2) ", " ++ "]")

/-- The method `ErrCycleDependency.Error`: the header is written first, then
one pass over the entries. -/
def ErrCycleDependency.Error (e : ErrCycleDependency) : String :=
  e.foldl ErrCycleDependency.Error.step "Cycle Dependency Error:"

/-! ## Sentinel errors (error.go lines 47-48) -/

/-- The library function `errors.New(text)`, which is what `fmt.Errorf(format)`
returns for a format without verb or operand: a newly allocated error value,
at the address `fresh` the allocator hands out, whose message is the text. -/
def errors.New (fresh : Nat) (text : String) : ErrorValue :=
  { addr := fresh, msg := text }

/-- The package-level variables of error.go after package initialisation,
with the first address the allocator has not handed out yet. -/
structure PackageVars where
  ErrWorkflowIsRunning : error
  ErrWorkflowHasRun : error
  next : Nat
  deriving DecidableEq, Repr

/-- Package initialisation, started with the allocator at address `heap`: the
two `var` declarations of lines 47 and 48 run in source order, and each call
of `fmt.Errorf` allocates its own error value. -/
def initPackage (heap : Nat) : PackageVars :=
  { ErrWorkflowIsRunning :=
      some (errors.New heap "Workflow is running, please wait for it terminated")
    ErrWorkflowHasRun :=
      some (errors.New (heap + 1)
        "Workflow has run, check result error via Err(), or reset the Workflow via Reset()")
    next := heap + 2 }

/-- The Go comparison `a == b` of two values of type `error` whose dynamic
values are pointers, as those made by `errors.New` are: both are nil, or both
are non-nil and are the same value (same address). The message text plays no
part. -/
def errorEq : error → error → Bool
  | none, none => true
  | some a, some b => a.addr == b.addr
  | _, _ => false

/-! ## Reference notions used by the statements -/

/-- The pieces of a text between its line breaks, as `strings.Split(s, "\n")`
gives them: a text without a line break is one piece, and each line break
starts a new piece. -/
def splitLines.go : List Char → List (List Char)
  | [] => [[]]
  | c :: cs =>
    if c = '\n' then [] :: splitLines.go cs
    else
      match splitLines.go cs with
      | [] => [[c]]
      | l :: ls => (c :: l) :: ls

/-- The lines of a string: `splitLines.go` on its characters. -/
def splitLines (s : String) : List String :=
  (splitLines.go s.data).map String.mk

/-- The line the specification gives for a failed step,
`<name> [<status>]: <message>`, with its line break. -/
def entryLine (j : StepReader) (msg : String) : String :=
  j.Name ++ " [" ++ j.GetStatus ++ "]: " ++ msg ++ "\n"

/-- The line the specification gives for a step handle, `<name> [<status>]`. -/
def handleLine (j : StepReader) : String :=
  j.Name ++ " [" ++ j.GetStatus ++ "]"

/-- The lines of the failed entries of a mapping, in enumeration order; an
entry with a nil error contributes nothing. -/
def entryLines (m : ErrWorkflow) : List String :=
  m.filterMap fun p => p.2.map fun err => entryLine p.1 err.msg

/-- The line the specification gives for a key of a cycle report,
`<name>: [<dep1>, <dep2>, …]`: the names of the dependencies in their list
order, joined by a comma and a blank. -/
def cycleLine (entry : StepReader × List StepReader) : String :=
  entry.1.Name ++ ": [" ++ ", ".intercalate (entry.2.map fun dep => dep.Name) ++ "]"

/-! ## Lemmas -/

theorem isNil_eq_true_iff (m : ErrWorkflow) :
    ErrWorkflow.IsNil m = true ↔ ∀ p ∈ m, p.2 = none := by
  induction m with
  | nil => simp [ErrWorkflow.IsNil]
  | cons p rest ih =>
    obtain ⟨j, err⟩ := p
    cases err with
    | none => simp [ErrWorkflow.IsNil, ih]
    | some v => simp [ErrWorkflow.IsNil]

theorem extract_all_nil (fresh : Nat) (r : Payload) (xs : List Extractor)
    (h : ∀ x ∈ xs, x r = .returns none) :
    catchPanicAsError.extract fresh r xs = .returns (some (fmt.Errorf fresh r)) := by
  induction xs with
  | nil => rfl
  | cons x rest ih =>
    have hx : x r = .returns none := h x (List.mem_cons_self x rest)
    have hrest : ∀ y ∈ rest, y r = .returns none :=
      fun y hy => h y (List.mem_cons_of_mem x hy)
    simp only [catchPanicAsError.extract, hx]
    exact ih hrest

theorem extract_append_match (fresh : Nat) (r : Payload) (pre post : List Extractor)
    (x : Extractor) (e : ErrorValue) (hpre : ∀ y ∈ pre, y r = .returns none)
    (hx : x r = .returns (some e)) :
    catchPanicAsError.extract fresh r (pre ++ x :: post) = .returns (some e) := by
  induction pre with
  | nil => simp only [List.nil_append, catchPanicAsError.extract, hx]
  | cons y rest ih =>
    have hy : y r = .returns none := hpre y (List.mem_cons_self y rest)
    have hrest : ∀ z ∈ rest, z r = .returns none :=
      fun z hz => hpre z (List.mem_cons_of_mem y hz)
    simp only [List.cons_append, catchPanicAsError.extract, hy]
    exact ih hrest

theorem extract_returns (fresh : Nat) (r : Payload) (xs : List Extractor)
    (h : ∀ x ∈ xs, ∃ v, x r = .returns v) :
    ∃ e, catchPanicAsError.extract fresh r xs = .returns (some e) := by
  induction xs with
  | nil => exact ⟨fmt.Errorf fresh r, rfl⟩
  | cons x rest ih =>
    obtain ⟨v, hv⟩ := h x (List.mem_cons_self x rest)
    have hrest : ∀ y ∈ rest, ∃ w, y r = .returns w :=
      fun y hy => h y (List.mem_cons_of_mem x hy)
    cases v with
    | none =>
      simp only [catchPanicAsError.extract, hv]
      exact ih hrest
    | some e => exact ⟨e, by simp only [catchPanicAsError.extract, hv]⟩

/-- Splitting an extractor list at a valid index. -/
theorem split_at_index (xs : List Extractor) (i : Nat) (hi : i < xs.length) :
    xs = xs.take i ++ xs[i] :: xs.drop (i + 1) := by
  rw [← List.drop_eq_getElem_cons hi, List.take_append_drop]

theorem take_all_nil (r : Payload) (xs : List Extractor) (i : Nat)
    (hbefore : ∀ j (hj : j < xs.length), j < i → xs[j] r = .returns none) :
    ∀ y ∈ xs.take i, y r = .returns none := by
  intro y hy
  obtain ⟨k, hk, rfl⟩ := List.getElem_of_mem hy
  rw [List.length_take] at hk
  rw [List.getElem_take]
  exact hbefore k (lt_of_lt_of_le hk (min_le_right _ _)) (lt_of_lt_of_le hk (min_le_left _ _))

/-! ## Claims -/

/-- C1: `IsNil` returns true exactly when every value stored in the mapping is
nil (so it is true on the empty mapping), false exactly when some entry carries
a non-nil error, and the result is the same for any enumeration order of the
same entries. -/
theorem ErrWorkflow.isNil_iff_all_nil (m m₂ : ErrWorkflow) (horder : m.Perm m₂) :
    (ErrWorkflow.IsNil m = true ↔ ∀ p ∈ m, p.2 = none) ∧
    (ErrWorkflow.IsNil m = false ↔ ∃ p ∈ m, p.2 ≠ none) ∧
    ErrWorkflow.IsNil m = ErrWorkflow.IsNil m₂ := by
  refine ⟨isNil_eq_true_iff m, ?_, ?_⟩
  · rw [← Bool.not_eq_true, isNil_eq_true_iff]
    push_neg
    rfl
  · rw [Bool.eq_iff_iff, isNil_eq_true_iff, isNil_eq_true_iff]
    exact ⟨fun H p hp => H p (horder.mem_iff.mpr hp),
      fun H p hp => H p (horder.mem_iff.mp hp)⟩

/-- C1 at concrete mappings: the empty mapping, and a two-entry mapping with
one failure read in both orders. -/
theorem ErrWorkflow.isNil_iff_all_nil_witness :
    ErrWorkflow.IsNil [] = true ∧
    ErrWorkflow.IsNil [(⟨1, "A", "Failed"⟩, some ⟨0, "disk full"⟩), (⟨2, "B", "Succeeded"⟩, none)]
      = ErrWorkflow.IsNil [(⟨2, "B", "Succeeded"⟩, none), (⟨1, "A", "Failed"⟩, some ⟨0, "disk full"⟩)] :=
  ⟨((ErrWorkflow.isNil_iff_all_nil [] [] (List.Perm.refl _)).1).mpr (by simp),
   (ErrWorkflow.isNil_iff_all_nil _ _ (List.Perm.swap _ _ [])).2.2⟩

/-- C2: when the guarded operation returns normally with `v` (nil or not),
`catchPanicAsError` returns exactly `v`, whatever the extractors are: any two
extractor sequences give the same result. -/
theorem catchPanicAsError_of_returns (fresh : Nat) (v : error) (xs ys : List Extractor) :
    catchPanicAsError fresh (.returns v) xs = .returns v ∧
    catchPanicAsError fresh (.returns v) xs = catchPanicAsError fresh (.returns v) ys :=
  ⟨rfl, rfl⟩

/-- C3 as stated fails: in this chain the second extractor is the first one,
and the only one, that returns a non-nil error on the payload, but the first
extractor faults on it, so `catchPanicAsError` ends with that fault instead of
returning the second extractor's error. -/
theorem catchPanicAsError_fault_before_match :
    ([fun _ => .panics (some (.str "again")),
      fun _ => .returns (some ⟨1, "typed"⟩)] : List Extractor).map
        (fun x => x (.str "boom"))
      = [.panics (some (.str "again")), .returns (some ⟨1, "typed"⟩)] ∧
    catchPanicAsError 0 (.panics (some (.str "boom")))
      [fun _ => .panics (some (.str "again")), fun _ => .returns (some ⟨1, "typed"⟩)]
      = .panics (some (.str "again")) ∧
    catchPanicAsError 0 (.panics (some (.str "boom")))
      [fun _ => .panics (some (.str "again")), fun _ => .returns (some ⟨1, "typed"⟩)]
      ≠ .returns (some ⟨1, "typed"⟩) := by
  refine ⟨rfl, rfl, ?_⟩
  simp [catchPanicAsError, catchPanicAsError.extract]

/-- C3, amended: when the guarded operation faults with payload `r`, `i` is the
first index whose extractor returns a non-nil error `e` on `r`, and every
extractor before `i` returns nil on `r`, `catchPanicAsError` returns exactly
`e`; the extractors after index `i` are not called, so they may be replaced by
any others without changing the result. -/
theorem catchPanicAsError_first_match (fresh : Nat) (r : Payload) (xs : List Extractor)
    (i : Nat) (hi : i < xs.length) (e : ErrorValue)
    (hmatch : xs[i] r = .returns (some e))
    (hbefore : ∀ j (hj : j < xs.length), j < i → xs[j] r = .returns none)
    (ys : List Extractor) :
    catchPanicAsError fresh (.panics (some r)) xs = .returns (some e) ∧
    catchPanicAsError fresh (.panics (some r)) (xs.take i ++ xs[i] :: ys)
      = .returns (some e) := by
  have hpre := take_all_nil r xs i hbefore
  constructor
  · rw [split_at_index xs i hi]
    exact extract_append_match fresh r _ _ _ e hpre hmatch
  · exact extract_append_match fresh r _ _ _ e hpre hmatch

/-- C3 amended, at a concrete chain: the first extractor returns nil, the second one
matches, the third one would fault but is never called. -/
theorem catchPanicAsError_first_match_witness :
    catchPanicAsError 0 (.panics (some (.str "boom")))
      [fun _ => .returns none, fun _ => .returns (some ⟨1, "typed"⟩), fun _ => .panics none]
      = .returns (some ⟨1, "typed"⟩) :=
  (catchPanicAsError_first_match 0 (.str "boom")
    [fun _ => .returns none, fun _ => .returns (some ⟨1, "typed"⟩), fun _ => .panics none]
    1 (by decide) ⟨1, "typed"⟩ rfl
    (fun j _ hlt => by
      have hj0 : j = 0 := by omega
      subst hj0
      rfl)
    []).1

/-- C4, the code at an integer payload: with no extractor, a fault `panic(5)`
is returned as an error whose message is the `%s` rendering `%!s(int=5)`,
which is not the default string form `5` of the payload. -/
theorem catchPanicAsError_int_payload :
    catchPanicAsError 0 (.panics (some (.int 5))) []
      = .returns (some ⟨0, "%!s(int=5)"⟩) ∧
    fmt.formatV (.int 5) = "5" ∧
    fmt.formatS (.int 5) ≠ fmt.formatV (.int 5) := by
  refine ⟨by decide, by decide, by decide⟩

/-- C5: when the guarded operation faults with a string payload `s` and every
extractor (if any) returns nil on it, `catchPanicAsError` returns a non-nil
error whose message is exactly `s`. -/
theorem catchPanicAsError_string_payload (fresh : Nat) (s : String) (xs : List Extractor)
    (hnil : ∀ x ∈ xs, x (.str s) = .returns none) :
    ∃ e : ErrorValue,
      catchPanicAsError fresh (.panics (some (.str s))) xs = .returns (some e) ∧
      e.msg = s :=
  ⟨fmt.Errorf fresh (.str s), extract_all_nil fresh (.str s) xs hnil, rfl⟩

/-- C5 at the payload "index out of range: 5" with no extractors. -/
theorem catchPanicAsError_string_payload_witness :
    ∃ e : ErrorValue,
      catchPanicAsError 0 (.panics (some (.str "index out of range: 5"))) []
        = .returns (some e) ∧
      e.msg = "index out of range: 5" :=
  catchPanicAsError_string_payload 0 "index out of range: 5" [] (by simp)

/-- C6 as stated fails: an extractor that itself faults while handling the
payload makes `catchPanicAsError` end with that fault instead of returning. -/
theorem catchPanicAsError_extractor_fault :
    catchPanicAsError 0 (.panics (some (.str "boom")))
      [fun _ => .panics (some (.str "again"))]
      = .panics (some (.str "again")) ∧
    ¬ ∃ v, catchPanicAsError 0 (.panics (some (.str "boom")))
      [fun _ => .panics (some (.str "again"))] = .returns v := by
  constructor
  · rfl
  · rintro ⟨v, hv⟩
    simp [catchPanicAsError, catchPanicAsError.extract] at hv

/-- C6, amended: for every way the guarded operation ends (returning, or
faulting with any payload, nil included) and every extractor sequence whose
extractors return normally on that payload, `catchPanicAsError` returns
normally with an error-or-nil result. -/
theorem catchPanicAsError_returns_normally (fresh : Nat) (f : Outcome)
    (xs : List Extractor)
    (hxs : ∀ r, f = .panics (some r) → ∀ x ∈ xs, ∃ v, x r = .returns v) :
    ∃ v : error, catchPanicAsError fresh f xs = .returns v := by
  cases f with
  | returns v => exact ⟨v, rfl⟩
  | panics r =>
    cases r with
    | none => exact ⟨none, rfl⟩
    | some r =>
      obtain ⟨e, he⟩ := extract_returns fresh r xs (hxs r rfl)
      exact ⟨some e, he⟩

/-- C6 amended, at a concrete call: a fault with an integer payload and one
extractor that returns nil. -/
theorem catchPanicAsError_returns_normally_witness :
    ∃ v : error,
      catchPanicAsError 3 (.panics (some (.int 7))) [fun _ => .returns none] = .returns v :=
  catchPanicAsError_returns_normally 3 (.panics (some (.int 7))) [fun _ => .returns none]
    (fun r _ x hx => by
      rw [List.mem_singleton] at hx
      subst hx
      exact ⟨none, rfl⟩)

/-! ### Rendering lemmas -/

theorem join_append (xs ys : List String) :
    String.join (xs ++ ys) = String.join xs ++ String.join ys := by
  apply String.ext
  simp

theorem join_cons (x : String) (xs : List String) :
    String.join (x :: xs) = x ++ String.join xs := by
  apply String.ext
  simp

theorem error_step_some (builder : String) (j : StepReader) (err : ErrorValue) :
    ErrWorkflow.Error.step builder (j, some err) = builder ++ entryLine j err.msg := rfl

theorem error_step_none (builder : String) (j : StepReader) :
    ErrWorkflow.Error.step builder (j, none) = builder := rfl

theorem error_foldl (m : ErrWorkflow) (builder : String) :
    m.foldl ErrWorkflow.Error.step builder = builder ++ String.join (entryLines m) := by
  induction m generalizing builder with
  | nil => apply String.ext; simp [entryLines]
  | cons p rest ih =>
    obtain ⟨j, err⟩ := p
    cases err with
    | none =>
      rw [List.foldl_cons, error_step_none, ih]
      simp [entryLines]
    | some x =>
      rw [List.foldl_cons, error_step_some, ih]
      have : entryLines ((j, some x) :: rest) = entryLine j x.msg :: entryLines rest := by
        simp [entryLines]
      rw [this, join_cons, String.append_assoc]

theorem error_eq_join (m : ErrWorkflow) :
    ErrWorkflow.Error m = String.join (entryLines m) := by
  unfold ErrWorkflow.Error
  rw [error_foldl]
  apply String.ext
  simp

theorem entryLines_filter (m : ErrWorkflow) :
    entryLines (m.filter fun p => p.2.isSome) = entryLines m := by
  induction m with
  | nil => rfl
  | cons p rest ih =>
    obtain ⟨j, err⟩ := p
    cases err with
    | none => simpa [entryLines, List.filter_cons] using ih
    | some x => simpa [entryLines, List.filter_cons] using ih

theorem entryLines_all_nil (m : ErrWorkflow) (h : ∀ p ∈ m, p.2 = none) :
    entryLines m = [] := by
  induction m with
  | nil => rfl
  | cons p rest ih =>
    obtain ⟨j, err⟩ := p
    have hp : err = none := h (j, err) (List.mem_cons_self _ _)
    subst hp
    have := ih fun q hq => h q (List.mem_cons_of_mem _ hq)
    simpa [entryLines] using this

theorem entryLine_mem (m : ErrWorkflow) (j : StepReader) (err : ErrorValue)
    (h : (j, some err) ∈ m) : entryLine j err.msg ∈ entryLines m := by
  unfold entryLines
  rw [List.mem_filterMap]
  exact ⟨(j, some err), h, rfl⟩

/-- C7: `Error()` is the concatenation, in enumeration order, of the line
`<name> [<status>]: <message>` plus a line break for each entry with a non-nil
error, with nothing for an entry whose error is nil; so the line of every
non-nil entry occurs in the output, and the output equals the render of the
mapping with its nil entries removed. -/
theorem ErrWorkflow.error_eq_lines (m : ErrWorkflow) :
    ErrWorkflow.Error m
      = String.join (m.filterMap fun p => p.2.map fun err =>
          p.1.Name ++ " [" ++ p.1.GetStatus ++ "]: " ++ err.msg ++ "\n") ∧
    (∀ j err, (j, some err) ∈ m →
      ∃ pre post, ErrWorkflow.Error m
        = pre ++ (j.Name ++ " [" ++ j.GetStatus ++ "]: " ++ err.msg ++ "\n") ++ post) ∧
    ErrWorkflow.Error m = ErrWorkflow.Error (m.filter fun p => p.2.isSome) := by
  refine ⟨error_eq_join m, ?_, ?_⟩
  · intro j err hmem
    obtain ⟨s, t, hst⟩ := List.append_of_mem (entryLine_mem m j err hmem)
    refine ⟨String.join s, String.join t, ?_⟩
    rw [error_eq_join, hst, join_append, join_cons, String.append_assoc]
    rfl
  · rw [error_eq_join, error_eq_join, entryLines_filter]

/-- C8: a mapping whose entries are, in some order, one entry `A` with a
non-nil error and any number of entries with nil errors has `IsNil()` false and
renders as exactly the one line of `A` with its line break. -/
theorem ErrWorkflow.single_failure (m : ErrWorkflow) (A : StepReader) (x : ErrorValue)
    (nils : ErrWorkflow) (hnil : ∀ p ∈ nils, p.2 = none)
    (horder : m.Perm ((A, some x) :: nils)) :
    ErrWorkflow.IsNil m = false ∧
    ErrWorkflow.Error m = A.Name ++ " [" ++ A.GetStatus ++ "]: " ++ x.msg ++ "\n" := by
  constructor
  · rw [← Bool.not_eq_true, isNil_eq_true_iff]
    intro hall
    have := hall (A, some x) (horder.mem_iff.mpr (List.mem_cons_self _ _))
    simp at this
  · have hperm : (entryLines m).Perm (entryLines ((A, some x) :: nils)) :=
      List.Perm.filterMap _ horder
    have hone : entryLines ((A, some x) :: nils) = [entryLine A x.msg] := by
      have := entryLines_all_nil nils hnil
      simpa [entryLines] using this
    rw [hone] at hperm
    rw [error_eq_join, List.perm_singleton.mp hperm, join_cons]
    apply String.ext
    simp [entryLine]

/-- C8 at the scenario of the specification: step A failed with "disk full",
step B has a nil error, B enumerated first. -/
theorem ErrWorkflow.single_failure_witness :
    ErrWorkflow.IsNil
      [(⟨2, "B", "Succeeded"⟩, none), (⟨1, "A", "Failed"⟩, some ⟨0, "disk full"⟩)] = false ∧
    ErrWorkflow.Error
      [(⟨2, "B", "Succeeded"⟩, none), (⟨1, "A", "Failed"⟩, some ⟨0, "disk full"⟩)]
      = "A [Failed]: disk full\n" :=
  ErrWorkflow.single_failure
    [(⟨2, "B", "Succeeded"⟩, none), (⟨1, "A", "Failed"⟩, some ⟨0, "disk full"⟩)]
    ⟨1, "A", "Failed"⟩ ⟨0, "disk full"⟩ [(⟨2, "B", "Succeeded"⟩, none)]
    (by simp) (List.Perm.swap _ _ [])

/-- C9: for an `ErrFlow` with non-nil underlying error `u`, `Error()` returns
exactly `ErrFlow(From <name> [<status>]): <message of u>`; the message of `u`
is the suffix of the text, and the fields `Err` and `From` are as before. -/
theorem ErrFlow.error_render (e : ErrFlow) (u : ErrorValue) (hu : e.Err = some u) :
    ∃ text after, ErrFlow.Error e = some (text, after) ∧
      text = "ErrFlow(From " ++ e.From.Name ++ " [" ++ e.From.GetStatus ++ "]): " ++ u.msg ∧
      (∃ head, text = head ++ u.msg) ∧
      after.Err = e.Err ∧ after.From = e.From := by
  refine ⟨_, e, ?_, rfl, ⟨_, rfl⟩, rfl, rfl⟩
  simp only [ErrFlow.Error, hu]

/-- C9 at a concrete value. -/
theorem ErrFlow.error_render_witness :
    ∃ text after,
      ErrFlow.Error ⟨some ⟨0, "bad input"⟩, ⟨1, "A", "Failed"⟩⟩ = some (text, after) ∧
      text = "ErrFlow(From " ++ "A" ++ " [" ++ "Failed" ++ "]): " ++ "bad input" ∧
      (∃ head, text = head ++ "bad input") ∧
      after.Err = some ⟨0, "bad input"⟩ ∧ after.From = ⟨1, "A", "Failed"⟩ :=
  ErrFlow.error_render ⟨some ⟨0, "bad input"⟩, ⟨1, "A", "Failed"⟩⟩ ⟨0, "bad input"⟩ rfl

/-! ### Lines of the initial-status report -/

theorem splitLines_go_of_no_break (l : List Char) (h : '\n' ∉ l) :
    splitLines.go l = [l] := by
  induction l with
  | nil => rfl
  | cons c cs ih =>
    have hc : c ≠ '\n' := fun hc => h (hc ▸ List.mem_cons_self _ _)
    have hcs : '\n' ∉ cs := fun hcs => h (List.mem_cons_of_mem _ hcs)
    simp [splitLines.go, hc, ih hcs]

theorem splitLines_go_append_break (l rest : List Char) (h : '\n' ∉ l) :
    splitLines.go (l ++ '\n' :: rest) = l :: splitLines.go rest := by
  induction l with
  | nil => simp [splitLines.go]
  | cons c cs ih =>
    have hc : c ≠ '\n' := fun hc => h (hc ▸ List.mem_cons_self _ _)
    have hcs : '\n' ∉ cs := fun hcs => h (List.mem_cons_of_mem _ hcs)
    simp [splitLines.go, hc, ih hcs]

theorem splitLines_go_blocks (l : List Char) (h : '\n' ∉ l) (blocks : List (List Char))
    (hb : ∀ b ∈ blocks, '\n' ∉ b) :
    splitLines.go (l ++ (blocks.map fun b => '\n' :: b).flatten) = l :: blocks := by
  induction blocks generalizing l with
  | nil => simpa using splitLines_go_of_no_break l h
  | cons b rest ih =>
    have hb0 : '\n' ∉ b := hb b (List.mem_cons_self _ _)
    have hrest : ∀ c ∈ rest, '\n' ∉ c := fun c hc => hb c (List.mem_cons_of_mem _ hc)
    have := ih b hb0 hrest
    simp only [List.map_cons, List.flatten_cons, List.cons_append]
    rw [splitLines_go_append_break l _ h, this]

theorem initStatus_foldl (e : ErrUnexpectStepInitStatus) (builder : String) :
    e.foldl ErrUnexpectStepInitStatus.Error.step builder
      = builder ++ String.join (e.map fun j => "\n" ++ handleLine j) := by
  induction e generalizing builder with
  | nil => apply String.ext; simp
  | cons j rest ih =>
    rw [List.foldl_cons, ih]
    apply String.ext
    simp [ErrUnexpectStepInitStatus.Error.step, handleLine]

theorem handleLine_no_break (j : StepReader) (hn : '\n' ∉ j.Name.data)
    (hs : '\n' ∉ j.GetStatus.data) : '\n' ∉ (handleLine j).data := by
  simp [handleLine, hn, hs]

/-- C10: for handles whose names and statuses hold no line break, `Error()` is
the header `Unexpect Step initial status:` followed, for each handle in slice
order, by a line break and `<name> [<status>]`; split at line breaks it is the
header followed by exactly one line per handle, the i-th line being that of the
i-th handle; for the empty slice it is the header alone. -/
theorem ErrUnexpectStepInitStatus.error_lines (e : ErrUnexpectStepInitStatus)
    (hclean : ∀ j ∈ e, '\n' ∉ j.Name.data ∧ '\n' ∉ j.GetStatus.data) :
    ErrUnexpectStepInitStatus.Error e
      = "Unexpect Step initial status:"
        ++ String.join (e.map fun j => "\n" ++ (j.Name ++ " [" ++ j.GetStatus ++ "]")) ∧
    splitLines (ErrUnexpectStepInitStatus.Error e)
      = "Unexpect Step initial status:"
        :: e.map (fun j => j.Name ++ " [" ++ j.GetStatus ++ "]") ∧
    (splitLines (ErrUnexpectStepInitStatus.Error e)).length = e.length + 1 ∧
    (∀ i (hi : i < e.length),
      (splitLines (ErrUnexpectStepInitStatus.Error e))[i + 1]?
        = some (e[i].Name ++ " [" ++ e[i].GetStatus ++ "]")) ∧
    ErrUnexpectStepInitStatus.Error [] = "Unexpect Step initial status:" := by
  have hrender : ErrUnexpectStepInitStatus.Error e
      = "Unexpect Step initial status:"
        ++ String.join (e.map fun j => "\n" ++ handleLine j) :=
    initStatus_foldl e _
  have hsplit : splitLines (ErrUnexpectStepInitStatus.Error e)
      = "Unexpect Step initial status:" :: e.map handleLine := by
    have hdata : (ErrUnexpectStepInitStatus.Error e).data
        = "Unexpect Step initial status:".data
          ++ ((e.map fun j => (handleLine j).data).map fun b => '\n' :: b).flatten := by
      rw [hrender]
      simp [List.map_map, Function.comp_def]
    have hblocks : ∀ b ∈ e.map (fun j => (handleLine j).data), '\n' ∉ b := by
      intro b hb
      obtain ⟨j, hj, rfl⟩ := List.mem_map.mp hb
      exact handleLine_no_break j (hclean j hj).1 (hclean j hj).2
    unfold splitLines
    rw [hdata, splitLines_go_blocks _ (by decide) _ hblocks]
    simp [List.map_map, Function.comp_def]
  refine ⟨hrender, hsplit, ?_, ?_, rfl⟩
  · rw [hsplit]; simp
  · intro i hi
    rw [hsplit]
    simp [hi, handleLine]

/-- C10 at a slice of two handles. -/
theorem ErrUnexpectStepInitStatus.error_lines_witness :
    splitLines (ErrUnexpectStepInitStatus.Error
        [⟨1, "A", "Failed"⟩, ⟨2, "B", "Running"⟩])
      = ["Unexpect Step initial status:", "A [Failed]", "B [Running]"] :=
  (ErrUnexpectStepInitStatus.error_lines [⟨1, "A", "Failed"⟩, ⟨2, "B", "Running"⟩]
    (by decide)).2.1

/-! ### Lines of the cycle report -/

theorem depsStr_foldl (deps : List StepReader) (acc : List String) :
    deps.foldl (fun depsStr dep => depsStr ++ [dep.Name]) acc
      = acc ++ deps.map fun dep => dep.Name := by
  induction deps generalizing acc with
  | nil => simp
  | cons d rest ih => rw [List.foldl_cons, ih]; simp

theorem depsStr_eq_map (deps : List StepReader) :
    ErrCycleDependency.Error.depsStr deps = deps.map fun dep => dep.Name := by
  unfold ErrCycleDependency.Error.depsStr
  rw [depsStr_foldl]
  rfl

theorem intercalate_go_eq_foldl (sep : String) (l : List String) (acc : String) :
    String.intercalate.go acc sep l = l.foldl (fun b s => b ++ sep ++ s) acc := by
  induction l generalizing acc with
  | nil => rfl
  | cons a rest ih => simp [String.intercalate.go, ih]

theorem join_eq_intercalate (elems : List String) (sep : String) :
    strings.Join elems sep = sep.intercalate elems := by
  match elems with
  | [] => rfl
  | [a] => rfl
  | a :: b :: rest =>
    simp only [strings.Join, String.intercalate]
    rw [intercalate_go_eq_foldl]

theorem cycle_step_eq (builder : String) (entry : StepReader × List StepReader) :
    ErrCycleDependency.Error.step builder entry
      = builder ++ ("\n" ++ cycleLine entry) := by
  unfold ErrCycleDependency.Error.step cycleLine
  rw [depsStr_eq_map, join_eq_intercalate]
  apply String.ext
  simp

theorem cycle_foldl (e : ErrCycleDependency) (builder : String) :
    e.foldl ErrCycleDependency.Error.step builder
      = builder ++ String.join (e.map fun p => "\n" ++ cycleLine p) := by
  induction e generalizing builder with
  | nil => apply String.ext; simp
  | cons p rest ih =>
    rw [List.foldl_cons, ih, cycle_step_eq, List.map_cons, join_cons, String.append_assoc]

theorem cycle_error_eq (e : ErrCycleDependency) :
    ErrCycleDependency.Error e
      = "Cycle Dependency Error:" ++ String.join (e.map fun p => "\n" ++ cycleLine p) :=
  cycle_foldl e _

theorem join_length_of_perm (l₁ l₂ : List String) (h : l₁.Perm l₂) :
    (String.join l₁).length = (String.join l₂).length := by
  show (String.join l₁).data.length = (String.join l₂).data.length
  rw [String.data_join, String.data_join]
  exact ((h.map String.data).flatten).length_eq

theorem append_length (a b : String) : (a ++ b).length = a.length + b.length := by
  show (a ++ b).data.length = a.data.length + b.data.length
  simp

/-- C11: for the keys in any enumeration order, `Error()` is the header
`Cycle Dependency Error:` followed, for each key in that order, by a line break
and `<name of the key>: [` ++ the names of all its dependencies, in list order,
joined by `, ` ++ `]`; a key with no dependency renders as `<name>: []`. -/
theorem ErrCycleDependency.error_eq_key_lines (e : ErrCycleDependency) :
    ErrCycleDependency.Error e
      = "Cycle Dependency Error:"
        ++ String.join (e.map fun p =>
            "\n" ++ (p.1.Name ++ ": ["
              ++ ", ".intercalate (p.2.map fun dep => dep.Name) ++ "]")) ∧
    (∀ k : StepReader,
      ErrCycleDependency.Error [(k, [])]
        = "Cycle Dependency Error:" ++ ("\n" ++ (k.Name ++ ": []"))) ∧
    ErrCycleDependency.Error
        [(⟨1, "A", "Pending"⟩, [⟨2, "B", "Pending"⟩, ⟨3, "C", "Pending"⟩]),
         (⟨2, "B", "Pending"⟩, [⟨1, "A", "Pending"⟩])]
      = "Cycle Dependency Error:\nA: [B, C]\nB: [A]" := by
  refine ⟨cycle_error_eq e, ?_, by decide⟩
  intro k
  rw [cycle_error_eq]
  apply String.ext
  simp [cycleLine, String.intercalate]

/-- C12 as stated fails: the same report with two keys, enumerated in the two
possible orders, renders as two different strings. -/
theorem ErrCycleDependency.error_order_dependent :
    List.Perm
      [((⟨1, "A", "Pending"⟩ : StepReader), [(⟨2, "B", "Pending"⟩ : StepReader)]),
       (⟨2, "B", "Pending"⟩, [⟨1, "A", "Pending"⟩])]
      [(⟨2, "B", "Pending"⟩, [⟨1, "A", "Pending"⟩]),
       (⟨1, "A", "Pending"⟩, [⟨2, "B", "Pending"⟩])] ∧
    ErrCycleDependency.Error
      [(⟨1, "A", "Pending"⟩, [⟨2, "B", "Pending"⟩]),
       (⟨2, "B", "Pending"⟩, [⟨1, "A", "Pending"⟩])]
      = "Cycle Dependency Error:\nA: [B]\nB: [A]" ∧
    ErrCycleDependency.Error
      [(⟨2, "B", "Pending"⟩, [⟨1, "A", "Pending"⟩]),
       (⟨1, "A", "Pending"⟩, [⟨2, "B", "Pending"⟩])]
      = "Cycle Dependency Error:\nB: [A]\nA: [B]" ∧
    ErrCycleDependency.Error
      [(⟨1, "A", "Pending"⟩, [⟨2, "B", "Pending"⟩]),
       (⟨2, "B", "Pending"⟩, [⟨1, "A", "Pending"⟩])]
      ≠ ErrCycleDependency.Error
      [(⟨2, "B", "Pending"⟩, [⟨1, "A", "Pending"⟩]),
       (⟨1, "A", "Pending"⟩, [⟨2, "B", "Pending"⟩])] :=
  ⟨List.Perm.swap _ _ [], by decide, by decide, by decide⟩

/-- C12, amended: the rendered string is determined by the contents of the
report together with the order in which its keys are enumerated. Two renders
under two enumeration orders have the same header and the same key lines, one
list of lines being a rearrangement of the other, and the same length; they
are the same string when the report has at most one key. -/
theorem ErrCycleDependency.error_up_to_order (e₁ e₂ : ErrCycleDependency)
    (horder : e₁.Perm e₂) :
    ErrCycleDependency.Error e₁
      = "Cycle Dependency Error:" ++ String.join (e₁.map fun p => "\n" ++ cycleLine p) ∧
    ErrCycleDependency.Error e₂
      = "Cycle Dependency Error:" ++ String.join (e₂.map fun p => "\n" ++ cycleLine p) ∧
    (e₁.map fun p => "\n" ++ cycleLine p).Perm (e₂.map fun p => "\n" ++ cycleLine p) ∧
    (ErrCycleDependency.Error e₁).length = (ErrCycleDependency.Error e₂).length ∧
    (e₁.length ≤ 1 → ErrCycleDependency.Error e₁ = ErrCycleDependency.Error e₂) := by
  have hlines := horder.map fun p => "\n" ++ cycleLine p
  refine ⟨cycle_error_eq e₁, cycle_error_eq e₂, hlines, ?_, ?_⟩
  · rw [cycle_error_eq, cycle_error_eq, append_length, append_length,
      join_length_of_perm _ _ hlines]
  · intro hlen
    match e₁, horder, hlen with
    | [], h, _ => rw [h.symm.eq_nil]
    | [a], h, _ => rw [List.perm_singleton.mp h.symm]

/-- C12 amended, at a report with two keys read in both orders: the two
renders have the same length. -/
theorem ErrCycleDependency.error_up_to_order_witness :
    (ErrCycleDependency.Error
      [(⟨1, "A", "Pending"⟩, [⟨2, "B", "Pending"⟩]),
       (⟨2, "B", "Pending"⟩, [⟨1, "A", "Pending"⟩])]).length
      = (ErrCycleDependency.Error
      [(⟨2, "B", "Pending"⟩, [⟨1, "A", "Pending"⟩]),
       (⟨1, "A", "Pending"⟩, [⟨2, "B", "Pending"⟩])]).length :=
  (ErrCycleDependency.error_up_to_order _ _ (List.Perm.swap _ _ [])).2.2.2.1

/-! ### Sentinels, success tests and faults -/

theorem error_eq_empty_iff (m : ErrWorkflow) :
    ErrWorkflow.Error m = "" ↔ ∀ p ∈ m, p.2 = none := by
  constructor
  · intro hempty p hp
    obtain ⟨j, err⟩ := p
    cases err with
    | none => rfl
    | some x =>
      obtain ⟨s, t, hst⟩ := List.append_of_mem (entryLine_mem m j x hp)
      rw [error_eq_join, hst, join_append, join_cons] at hempty
      have hdata := congrArg String.data hempty
      simp [entryLine] at hdata
  · intro hall
    rw [error_eq_join, entryLines_all_nil m hall]
    rfl

theorem entryLines_length (m : ErrWorkflow) :
    (entryLines m).length = m.countP fun p => p.2.isSome := by
  induction m with
  | nil => rfl
  | cons p rest ih =>
    obtain ⟨j, err⟩ := p
    cases err with
    | none => simpa [entryLines] using ih
    | some x => simpa [entryLines] using ih

/-- C13: after package initialisation the two sentinel errors are non-nil and
differ from each other, and an error constructed afterwards differs from each
sentinel even when it carries the same message text: equality of errors goes
by identity, not by text. -/
theorem sentinels_distinct (heap fresh : Nat) (hfresh : (initPackage heap).next ≤ fresh) :
    (initPackage heap).ErrWorkflowIsRunning ≠ none ∧
    (initPackage heap).ErrWorkflowHasRun ≠ none ∧
    errorEq (initPackage heap).ErrWorkflowIsRunning (initPackage heap).ErrWorkflowHasRun
      = false ∧
    (∀ running, (initPackage heap).ErrWorkflowIsRunning = some running →
      (errors.New fresh running.msg).msg = running.msg ∧
      errorEq (some (errors.New fresh running.msg)) (some running) = false ∧
      errorEq (some running) (some (errors.New fresh running.msg)) = false) ∧
    (∀ hasRun, (initPackage heap).ErrWorkflowHasRun = some hasRun →
      (errors.New fresh hasRun.msg).msg = hasRun.msg ∧
      errorEq (some (errors.New fresh hasRun.msg)) (some hasRun) = false ∧
      errorEq (some hasRun) (some (errors.New fresh hasRun.msg)) = false) := by
  have hnext : heap + 2 ≤ fresh := hfresh
  refine ⟨by simp [initPackage], by simp [initPackage], ?_, ?_, ?_⟩
  · simp [initPackage, errorEq, errors.New]
  · intro running hrun
    simp only [initPackage, Option.some.injEq] at hrun
    subst hrun
    simp only [errorEq, errors.New, beq_eq_false_iff_ne, ne_eq]
    exact ⟨trivial, by omega, by omega⟩
  · intro hasRun hrun
    simp only [initPackage, Option.some.injEq] at hrun
    subst hrun
    simp only [errorEq, errors.New, beq_eq_false_iff_ne, ne_eq]
    exact ⟨trivial, by omega, by omega⟩

/-- C13 at a concrete run: initialisation starts at address 0 and the next
error is constructed at address 2 with the text of the first sentinel. -/
theorem sentinels_distinct_witness :
    errorEq (initPackage 0).ErrWorkflowIsRunning (initPackage 0).ErrWorkflowHasRun = false ∧
    errorEq
      (some (errors.New 2 "Workflow is running, please wait for it terminated"))
      (initPackage 0).ErrWorkflowIsRunning = false :=
  ⟨(sentinels_distinct 0 2 (by decide)).2.2.1,
   ((sentinels_distinct 0 2 (by decide)).2.2.2.1 _ rfl).2.1⟩

/-- C14: `IsNil()` is true exactly when `Error()` is the empty string, also when
the two calls enumerate the entries in different orders. -/
theorem ErrWorkflow.isNil_iff_error_empty (m m₂ : ErrWorkflow) (horder : m.Perm m₂) :
    (ErrWorkflow.IsNil m = true ↔ ErrWorkflow.Error m = "") ∧
    (ErrWorkflow.IsNil m = true ↔ ErrWorkflow.Error m₂ = "") := by
  have hmem : (∀ p ∈ m, p.2 = none) ↔ ∀ p ∈ m₂, p.2 = none :=
    ⟨fun H p hp => H p (horder.mem_iff.mpr hp), fun H p hp => H p (horder.mem_iff.mp hp)⟩
  constructor
  · rw [isNil_eq_true_iff, error_eq_empty_iff]
  · rw [isNil_eq_true_iff, error_eq_empty_iff, hmem]

/-- C14 at two concrete mappings: one with a failure (neither test succeeds),
one with nil errors only (both succeed). -/
theorem ErrWorkflow.isNil_iff_error_empty_witness :
    (ErrWorkflow.IsNil
        [(⟨1, "A", "Failed"⟩, some ⟨0, "disk full"⟩), (⟨2, "B", "Succeeded"⟩, none)] = true ↔
      ErrWorkflow.Error
        [(⟨2, "B", "Succeeded"⟩, none), (⟨1, "A", "Failed"⟩, some ⟨0, "disk full"⟩)] = "") ∧
    ErrWorkflow.Error [(⟨2, "B", "Succeeded"⟩, none)] = "" :=
  ⟨(ErrWorkflow.isNil_iff_error_empty _ _ (List.Perm.swap _ _ [])).2,
   ((ErrWorkflow.isNil_iff_error_empty [(⟨2, "B", "Succeeded"⟩, none)] _
      (List.Perm.refl _)).1).mp (by decide)⟩

/-- C15 as stated fails: with an extractor that itself faults, the call ends
with that fault and returns no error at all; and a fault whose payload
`recover()` reports as nil is returned as the nil error. -/
theorem catchPanicAsError_fault_without_error :
    catchPanicAsError 0 (.panics (some (.int 1)))
      [fun _ => .returns none, fun _ => .panics (some (.str "extractor failed"))]
      = .panics (some (.str "extractor failed")) ∧
    catchPanicAsError 0 (.panics none) [] = .returns none := by
  constructor <;> rfl

/-- C15, amended: when the guarded operation faults with a payload that
`recover()` reports as non-nil, and every extractor returns normally on that
payload (matching or not), `catchPanicAsError` returns a non-nil error. -/
theorem catchPanicAsError_fault_gives_error (fresh : Nat) (r : Payload)
    (xs : List Extractor) (hxs : ∀ x ∈ xs, ∃ v, x r = .returns v) :
    ∃ e : ErrorValue, catchPanicAsError fresh (.panics (some r)) xs = .returns (some e) :=
  extract_returns fresh r xs hxs

/-- C15 amended, at a concrete call: a boolean payload, one extractor that does
not match and one that does. -/
theorem catchPanicAsError_fault_gives_error_witness :
    ∃ e : ErrorValue,
      catchPanicAsError 5 (.panics (some (.bool true)))
        [fun _ => .returns none, fun _ => .returns (some ⟨9, "typed"⟩)]
        = .returns (some e) :=
  catchPanicAsError_fault_gives_error 5 (.bool true)
    [fun _ => .returns none, fun _ => .returns (some ⟨9, "typed"⟩)]
    (fun x hx => by
      simp only [List.mem_cons, List.mem_singleton, List.not_mem_nil, or_false] at hx
      rcases hx with rfl | rfl
      · exact ⟨none, rfl⟩
      · exact ⟨some ⟨9, "typed"⟩, rfl⟩)

/-- C16: for two enumeration orders of the same entries, each `Error()` string
is the concatenation of the lines of the non-nil entries, one line for each
such entry, the two lists of lines are rearrangements of each other, and the
two strings have the same length. -/
theorem ErrWorkflow.error_rearranged (m₁ m₂ : ErrWorkflow) (horder : m₁.Perm m₂) :
    ErrWorkflow.Error m₁ = String.join (entryLines m₁) ∧
    ErrWorkflow.Error m₂ = String.join (entryLines m₂) ∧
    (entryLines m₁).Perm (entryLines m₂) ∧
    (ErrWorkflow.Error m₁).length = (ErrWorkflow.Error m₂).length ∧
    (entryLines m₁).length = m₁.countP (fun p => p.2.isSome) ∧
    (entryLines m₂).length = m₂.countP (fun p => p.2.isSome) := by
  have hlines : (entryLines m₁).Perm (entryLines m₂) := List.Perm.filterMap _ horder
  refine ⟨error_eq_join m₁, error_eq_join m₂, hlines, ?_,
    entryLines_length m₁, entryLines_length m₂⟩
  rw [error_eq_join, error_eq_join]
  exact join_length_of_perm _ _ hlines

/-- C16 at a mapping with two failures and one nil entry, read in two orders:
the two renders have the same length. -/
theorem ErrWorkflow.error_rearranged_witness :
    (ErrWorkflow.Error
      [(⟨1, "A", "Failed"⟩, some ⟨0, "disk full"⟩), (⟨2, "B", "Succeeded"⟩, none),
       (⟨3, "C", "Failed"⟩, some ⟨1, "timeout"⟩)]).length
    = (ErrWorkflow.Error
      [(⟨3, "C", "Failed"⟩, some ⟨1, "timeout"⟩), (⟨1, "A", "Failed"⟩, some ⟨0, "disk full"⟩),
       (⟨2, "B", "Succeeded"⟩, none)]).length :=
  (ErrWorkflow.error_rearranged _ _ (by decide)).2.2.2.1

end Pl
